import Mathlib

/-!
# Verification of the MainThreadTextEditors bridge

Shallow embedding of src/vs/workbench/api/browser/mainThreadEditors.ts:
the main-process bridge that mirrors editor state (positions, properties,
diff information) to an extension-host peer and dispatches remotely
invoked editor commands.  External collaborators that are declared but not
implemented in the excerpt (the editor locator, event emitters, the
observable framework, MainThreadTextEditor) are modelled from the spec
where a claim depends on them; each such definition carries a
doc comment starting with the words Modelled from the spec.
-/

namespace MainThreadEditors

/-- A visible editor pane, as seen by the bridge: the handle the editor
locator resolves for it (none when `findTextEditorIdFor` returns
undefined) and the column `editorGroupToColumn` assigns to its group. -/
structure Pane where
  attachedEditorId : Option String
  groupColumn : Nat
deriving DecidableEq, Repr

/-- The locator's `findTextEditorIdFor(editorPane)`: resolves a visible
pane to the handle of the text editor it shows, if any. -/
def findTextEditorIdFor (pane : Pane) : Option String :=
  pane.attachedEditorId

/-- Source `ITextEditorPositionData`: a JavaScript record mapping editor handles to
columns, represented as an association list in object-key insertion order. -/
abbrev PositionData := List (String × Nat)

/-- JavaScript object property assignment `m[k] = v`: overwrite in place if
the key is present, otherwise append the new key at the end. -/
def assocSet {β : Type} (m : List (String × β)) (k : String) (v : β) :
    List (String × β) :=
  if m.any (fun p => p.1 == k) then
    m.map (fun p => if p.1 == k then (k, v) else p)
  else
    m ++ [(k, v)]

/-- Source `_getTextEditorPositionData`: walk the visible editor panes, resolve
each to a handle via the locator, and record the pane's group column under
that handle.  The source guards with the JavaScript truthiness test
`if (id)`, which skips both an unresolved pane and an empty-string id. -/
def getTextEditorPositionData (panes : List Pane) : PositionData :=
  panes.foldl
    (fun acc pane =>
      match findTextEditorIdFor pane with
      | some id => if id == "" then acc else assocSet acc id pane.groupColumn
      | none => acc)
    []

/-- Modelled from the spec: `objectEquals` (base/common/objects.ts, not in
src/) is described as deep/structural value equality; on flat
string-to-number records this is key-set equality plus value agreement. -/
def posDataEquals (a b : PositionData) : Bool :=
  a.all (fun p => b.lookup p.1 == some p.2) &&
  b.all (fun p => a.lookup p.1 == some p.2)

/-- Source `objectEquals(this._editorPositionData, editorPositionData)` where the
stored snapshot may still be `null` (never equal to a freshly computed
record). -/
def posDataOptEquals : Option PositionData → PositionData → Bool
  | none, _ => false
  | some a, b => posDataEquals a b

/-- Legacy `IChange` line-change tuple. -/
structure LineChange where
  originalStartLineNumber : Nat
  originalEndLineNumber : Nat
  modifiedStartLineNumber : Nat
  modifiedEndLineNumber : Nat
deriving DecidableEq, Repr

/-- Source `ITextEditorDiffInformation`: document version, original/modified
resources and the line-range change tuples. -/
structure TextEditorDiffInformation where
  documentVersion : Nat
  original : String
  modified : String
  changes : List (Nat × Nat × Nat × Nat)
deriving DecidableEq, Repr

/-- An outbound notification to the extension-host peer proxy. -/
inductive PeerMsg where
  | positionData (data : PositionData)
  | propsChanged (id : String) (data : Nat)
  | diffInformation (id : String) (value : Option TextEditorDiffInformation)
deriving DecidableEq, Repr

/-- The editor handle a peer message is tagged with, if any. -/
def PeerMsg.handleOf : PeerMsg → Option String
  | .positionData _ => none
  | .propsChanged id _ => some id
  | .diffInformation id _ => some id

/-- The bridge instance's own mutable state: its namespacing id, the
per-editor listener bundles (`_textEditorsListenersMap`, represented by the
handles holding a live bundle), the last sent position snapshot
(`_editorPositionData`), the decoration types it registered
(`_registeredDecorationTypes`), whether the `_toDispose` store is still
live, and the log of notifications sent to the peer proxy. -/
structure BridgeState where
  instanceId : String
  listeners : List String
  editorPositionData : Option PositionData
  registeredDecorationTypes : List String
  subscriptionsActive : Bool
  peerLog : List PeerMsg
deriving DecidableEq, Repr

/-- Source `_updateActiveAndVisibleTextEditors`: recompute the handle-to-column
mapping and send `$acceptEditorPositionData` only when it is not
`objectEquals` to the previously sent snapshot. -/
def updateActiveAndVisibleTextEditors (b : BridgeState) (panes : List Pane) :
    BridgeState :=
  if posDataOptEquals b.editorPositionData (getTextEditorPositionData panes) then b
  else
    { b with
      editorPositionData := some (getTextEditorPositionData panes),
      peerLog := b.peerLog ++
        [PeerMsg.positionData (getTextEditorPositionData panes)] }

/-- A property-change or diff-recomputation emission by the underlying
editor objects, tagged with the handle of the editor that emitted it. -/
inductive EditorEvent where
  | propertiesChanged (id : String) (data : Nat)
  | diffChanged (id : String) (value : Option TextEditorDiffInformation)
deriving DecidableEq, Repr

/-- Modelled from the spec: the event-emitter/disposable contract of the
host framework (base/common/event.ts and lifecycle.ts, not in src/) — a
subscription created in `handleTextEditorAdded` forwards an emission to
the peer only while its listener bundle is still held in
`_textEditorsListenersMap`; a disposed subscription never fires again. -/
def emitEditorEvent (b : BridgeState) : EditorEvent → BridgeState
  | .propertiesChanged id data =>
    if id ∈ b.listeners then
      { b with peerLog := b.peerLog ++ [PeerMsg.propsChanged id data] }
    else b
  | .diffChanged id value =>
    if id ∈ b.listeners then
      { b with peerLog := b.peerLog ++ [PeerMsg.diffInformation id value] }
    else b

/-- Fold a sequence of editor emissions through the bridge. -/
def runEditorEvents (b : BridgeState) (evs : List EditorEvent) : BridgeState :=
  evs.foldl emitEditorEvent b

/-- Source `handleTextEditorAdded`: allocate the listener bundle for the handle
(overwriting a stale entry, as JavaScript map assignment does) and let the
`autorun` forward the initial diff-information value immediately. -/
def handleTextEditorAdded (b : BridgeState) (id : String)
    (initialDiff : Option TextEditorDiffInformation) : BridgeState :=
  { b with
    listeners := id :: b.listeners.filter (fun x => x != id),
    peerLog := b.peerLog ++ [PeerMsg.diffInformation id initialDiff] }

/-- Source `handleTextEditorRemoved`: dispose and delete the listener bundle for
the handle (`dispose` of an absent bundle is a no-op). -/
def handleTextEditorRemoved (b : BridgeState) (id : String) : BridgeState :=
  { b with listeners := b.listeners.filter (fun x => x != id) }

/-- The rendering service's set of registered decoration-type keys
(`ICodeEditorService.registerDecorationType` / `removeDecorationType`). -/
abbrev DecorationTypeRegistry := List String

/-- Source `ICodeEditorService.registerDecorationType key`. -/
def registerDecorationTypeSvc (svc : DecorationTypeRegistry) (key : String) :
    DecorationTypeRegistry :=
  svc ++ [key]

/-- Source `ICodeEditorService.removeDecorationType key`. -/
def removeDecorationTypeSvc (svc : DecorationTypeRegistry) (key : String) :
    DecorationTypeRegistry :=
  svc.filter (fun x => x != key)

/-- Source `dispose`: release all listener bundles, clear the listener map,
dispose the `_toDispose` store, unregister every decoration type this
instance registered, and clear the registry. -/
def dispose (b : BridgeState) (svc : DecorationTypeRegistry) :
    BridgeState × DecorationTypeRegistry :=
  ({ b with
      listeners := [],
      registeredDecorationTypes := [],
      subscriptionsActive := false },
   b.registeredDecorationTypes.foldl removeDecorationTypeSvc svc)

/-- The decimal digit characters 0-9. -/
def digitCh (d : Nat) : Char := Char.ofNat (48 + d)

/-- Modelled from the spec: the JavaScript `String(n)` conversion applied
to `++MainThreadTextEditors.INSTANCE_COUNT` — the usual decimal numeral of
a natural number. -/
def natToDecimal (n : Nat) : String :=
  if n = 0 then "0" else ⟨((Nat.digits 10 n).reverse.map digitCh)⟩

/-- Source `this._instanceId = String(++MainThreadTextEditors.INSTANCE_COUNT)`:
the instance created when the static counter reaches `instanceCount`. -/
def mkInstanceId (instanceCount : Nat) : String := natToDecimal instanceCount

/-- The session-namespaced decoration key: the template literal
interpolation of the instance id, a dash, and the caller's key. -/
def namespaceDecorationKey (instanceId key : String) : String :=
  instanceId ++ "-" ++ key

/-- Source `$registerTextEditorDecorationType`: namespace the key, record it in
`_registeredDecorationTypes` (a JavaScript object used as a set), and
register it with the rendering service. -/
def registerTextEditorDecorationType (b : BridgeState)
    (svc : DecorationTypeRegistry) (key : String) :
    BridgeState × DecorationTypeRegistry :=
  ({ b with
      registeredDecorationTypes :=
        if b.registeredDecorationTypes.contains
            (namespaceDecorationKey b.instanceId key) then
          b.registeredDecorationTypes
        else
          b.registeredDecorationTypes ++
            [namespaceDecorationKey b.instanceId key] },
   registerDecorationTypeSvc svc (namespaceDecorationKey b.instanceId key))

/-- Source `$removeTextEditorDecorationType`: namespace the key, drop it from the
registry, and remove it from the rendering service. -/
def removeTextEditorDecorationType (b : BridgeState)
    (svc : DecorationTypeRegistry) (key : String) :
    BridgeState × DecorationTypeRegistry :=
  ({ b with
      registeredDecorationTypes :=
        b.registeredDecorationTypes.filter
          (fun x => x != namespaceDecorationKey b.instanceId key) },
   removeDecorationTypeSvc svc (namespaceDecorationKey b.instanceId key))

/-- The text model behind a main-thread editor: its resource, version
counter and contents. -/
structure TextEditorModel where
  uri : String
  versionId : Nat
  contents : String
deriving DecidableEq, Repr

/-- An `ISelection`. -/
structure TextEditorSelection where
  selectionStartLineNumber : Nat
  selectionStartColumn : Nat
  positionLineNumber : Nat
  positionColumn : Nat
deriving DecidableEq, Repr

/-- An `ISingleEditOperation`: a target range and replacement text. -/
structure EditOperation where
  startLineNumber : Nat
  endLineNumber : Nat
  text : Option String
deriving DecidableEq, Repr

/-- The mutable state of one `MainThreadTextEditor`, as far as the bridge
commands touch it. -/
structure TextEditorState where
  model : TextEditorModel
  selections : List TextEditorSelection
  decorations : List (String × List (Nat × Nat))
  decorationsFast : List (String × List Nat)
  configUpdates : List Nat
  revealRequests : List ((Nat × Nat) × Nat)
  codeEditorId : Option String
deriving DecidableEq, Repr

/-- Source `MainThreadTextEditor.setSelections`. -/
def setSelections (e : TextEditorState)
    (selections : List TextEditorSelection) : TextEditorState :=
  { e with selections := selections }

/-- Source `MainThreadTextEditor.setDecorations key ranges`. -/
def setDecorations (e : TextEditorState) (key : String)
    (ranges : List (Nat × Nat)) : TextEditorState :=
  { e with decorations := assocSet e.decorations key ranges }

/-- Source `MainThreadTextEditor.setDecorationsFast key ranges`. -/
def setDecorationsFast (e : TextEditorState) (key : String)
    (ranges : List Nat) : TextEditorState :=
  { e with decorationsFast := assocSet e.decorationsFast key ranges }

/-- Source `MainThreadTextEditor.revealRange`. -/
def revealRange (e : TextEditorState) (range : Nat × Nat)
    (revealType : Nat) : TextEditorState :=
  { e with revealRequests := e.revealRequests ++ [(range, revealType)] }

/-- Source `MainThreadTextEditor.setConfiguration`. -/
def setConfiguration (e : TextEditorState) (update : Nat) :
    TextEditorState :=
  { e with configUpdates := e.configUpdates ++ [update] }

/-- Modelled from the spec: `MainThreadTextEditor.applyEdits`
(mainThreadEditor.ts, not in src/) — applies a list of edit operations
conditioned on an expected model version; a version mismatch returns
`false` without mutating the model, a match applies the edits and bumps
the version counter (the textual splicing itself is abstracted). -/
def applyEdits (e : TextEditorState) (modelVersionId : Nat)
    (edits : List EditOperation) : Bool × TextEditorState :=
  if modelVersionId ≠ e.model.versionId then (false, e)
  else
    (true,
      { e with
        model :=
          { e.model with
            versionId := e.model.versionId + 1,
            contents :=
              edits.foldl (fun c ed => c ++ ed.text.getD "")
                e.model.contents } })

/-- Modelled from the spec: `MainThreadTextEditor.insertSnippet`
(mainThreadEditor.ts, not in src/) — inserts a template and returns a
success flag; the insertion itself is abstracted as an append. -/
def insertSnippet (e : TextEditorState) (template : String) :
    Bool × TextEditorState :=
  (true,
    { e with
      model :=
        { e.model with
          versionId := e.model.versionId + 1,
          contents := e.model.contents ++ template } })

/-- A side-by-side diff view known to the rendering service: the ids of
its original and modified code editors, and the latest computed line
changes (`getLineChanges()` returns null before the first result). -/
structure DiffEditorView where
  originalId : String
  modifiedId : String
  lineChanges : Option (List LineChange)
deriving DecidableEq, Repr

/-- The host environment surrounding the bridge: the editors the locator
can resolve, the visible panes, the diff views, the dirty-diff
contributions cached per code editor, and the log of open requests issued
to the editor service. -/
structure World where
  editors : List (String × TextEditorState)
  visiblePanes : List Pane
  diffEditors : List DiffEditorView
  dirtyDiffContributions : List (String × List LineChange)
  openedEditors : List (String × Option Nat)
deriving DecidableEq, Repr

/-- The locator's `getEditor(id)`. -/
def getEditor (w : World) (id : String) : Option TextEditorState :=
  w.editors.lookup id

/-- Replace the editor stored under a handle (in-place object mutation:
only the first binding of the handle changes). -/
def updateEditor :
    List (String × TextEditorState) → String → TextEditorState →
      List (String × TextEditorState)
  | [], _, _ => []
  | (k, e) :: rest, id, e' =>
    if k = id then (k, e') :: rest else (k, e) :: updateEditor rest id e'

/-- Store a mutated editor back into the world. -/
def setEditor (w : World) (id : String) (e : TextEditorState) : World :=
  { w with editors := updateEditor w.editors id e }

/-- The two error classes the command surface produces: `illegalArgument`
for an unresolvable handle, and a plain error. -/
inductive BridgeError where
  | illegalArgument (message : String)
  | genericError (message : String)
deriving DecidableEq, Repr

/-- Source `$trySetSelections`. -/
def trySetSelections (w : World) (id : String)
    (selections : List TextEditorSelection) :
    Except BridgeError (World × Unit) :=
  match getEditor w id with
  | none => .error (.illegalArgument ("TextEditor(" ++ id ++ ")"))
  | some e => .ok (setEditor w id (setSelections e selections), ())

/-- Source `$trySetDecorations` (key namespaced before the handle lookup). -/
def trySetDecorations (b : BridgeState) (w : World) (id key : String)
    (ranges : List (Nat × Nat)) : Except BridgeError (World × Unit) :=
  match getEditor w id with
  | none => .error (.illegalArgument ("TextEditor(" ++ id ++ ")"))
  | some e =>
    .ok (setEditor w id
      (setDecorations e (namespaceDecorationKey b.instanceId key) ranges), ())

/-- Source `$trySetDecorationsFast`. -/
def trySetDecorationsFast (b : BridgeState) (w : World) (id key : String)
    (ranges : List Nat) : Except BridgeError (World × Unit) :=
  match getEditor w id with
  | none => .error (.illegalArgument ("TextEditor(" ++ id ++ ")"))
  | some e =>
    .ok (setEditor w id
      (setDecorationsFast e (namespaceDecorationKey b.instanceId key) ranges),
      ())

/-- Source `$tryRevealRange`. -/
def tryRevealRange (w : World) (id : String) (range : Nat × Nat)
    (revealType : Nat) : Except BridgeError (World × Unit) :=
  match getEditor w id with
  | none => .error (.illegalArgument ("TextEditor(" ++ id ++ ")"))
  | some e => .ok (setEditor w id (revealRange e range revealType), ())

/-- Source `$trySetOptions`. -/
def trySetOptions (w : World) (id : String) (update : Nat) :
    Except BridgeError (World × Unit) :=
  match getEditor w id with
  | none => .error (.illegalArgument ("TextEditor(" ++ id ++ ")"))
  | some e => .ok (setEditor w id (setConfiguration e update), ())

/-- Source `$tryApplyEdits`. -/
def tryApplyEdits (w : World) (id : String) (modelVersionId : Nat)
    (edits : List EditOperation) : Except BridgeError (World × Bool) :=
  match getEditor w id with
  | none => .error (.illegalArgument ("TextEditor(" ++ id ++ ")"))
  | some e =>
    .ok (setEditor w id (applyEdits e modelVersionId edits).2,
      (applyEdits e modelVersionId edits).1)

/-- Source `$tryInsertSnippet`. -/
def tryInsertSnippet (w : World) (id : String) (template : String) :
    Except BridgeError (World × Bool) :=
  match getEditor w id with
  | none => .error (.illegalArgument ("TextEditor(" ++ id ++ ")"))
  | some e =>
    .ok (setEditor w id (insertSnippet e template).2,
      (insertSnippet e template).1)

/-- Modelled from the spec: `MainThreadTextEditor.matches(editorPane)`
(mainThreadEditor.ts, not in src/) — whether a visible pane shows the
editor with the given handle. -/
def editorMatchesPane (id : String) (pane : Pane) : Bool :=
  pane.attachedEditorId == some id

/-- Source `$tryShowEditor`: resolve the handle; when found, ask the editor
service to open the editor's model in the requested column; when not
found, resolve silently. -/
def tryShowEditor (w : World) (id : String) (position : Option Nat) :
    Except BridgeError (World × Unit) :=
  match getEditor w id with
  | some e =>
    .ok ({ w with openedEditors := w.openedEditors ++ [(e.model.uri, position)] },
      ())
  | none => .ok (w, ())

/-- Source `$tryHideEditor`: resolve the handle; when found, close the first
visible pane matching the editor; otherwise resolve silently. -/
def tryHideEditor (w : World) (id : String) :
    Except BridgeError (World × Unit) :=
  match getEditor w id with
  | none => .ok (w, ())
  | some _ =>
    match w.visiblePanes.find? (editorMatchesPane id) with
    | some pane => .ok ({ w with visiblePanes := w.visiblePanes.erase pane }, ())
    | none => .ok (w, ())

/-- Source `$getDiffInformation`: reject when the handle or its code-editor
surface is missing; prefer the first diff view containing the surface
(empty list when it has no result yet), else the dirty-diff
contribution's cached changes, else the empty list. -/
def getDiffInformation (w : World) (id : String) :
    Except BridgeError (List LineChange) :=
  match getEditor w id with
  | none => .error (.genericError "No such TextEditor")
  | some e =>
    match e.codeEditorId with
    | none => .error (.genericError "No such CodeEditor")
    | some codeEditorId =>
      match (w.diffEditors.filter
          (fun d => d.originalId == codeEditorId ||
            d.modifiedId == codeEditorId)).head? with
      | some diffEditor => .ok (diffEditor.lineChanges.getD [])
      | none =>
        match w.dirtyDiffContributions.lookup codeEditorId with
        | some changes => .ok changes
        | none => .ok []

/-- Modelled from the spec: `isTextEditorDiffInformationEqual`
(platform/editor/common/editor.ts, not in src/) — structural equality of
diff-information values ignoring object identity, with resources compared
through the uri-identity service (canonical resource strings here). -/
def isTextEditorDiffInformationEqualModel :
    Option TextEditorDiffInformation → Option TextEditorDiffInformation →
      Bool
  | none, none => true
  | some a, some b => decide (a = b)
  | _, _ => false

/-- The state of the `derivedOpts` node feeding the per-editor `autorun`:
the last computed value (outer `none` before the first computation) and
the log of values forwarded to `$acceptEditorDiffInformation`. -/
structure DiffObservableState where
  lastValue : Option (Option TextEditorDiffInformation)
  sentLog : List (Option TextEditorDiffInformation)
deriving DecidableEq, Repr

/-- The observable state before the autorun first runs. -/
def initialDiffObservableState : DiffObservableState := ⟨none, []⟩

/-- Modelled from the spec: the `derivedOpts`/`autorun` contract
(base/common/observable.ts, not in src/) — the first computation is always
delivered to the autorun; afterwards, a recomputed value is delivered only
when the node's `equalsFn` does not equate it with the previous value. -/
def diffRecompute (s : DiffObservableState)
    (v : Option TextEditorDiffInformation) : DiffObservableState :=
  match s.lastValue with
  | none => { lastValue := some v, sentLog := s.sentLog ++ [v] }
  | some prev =>
    if isTextEditorDiffInformationEqualModel prev v then s
    else { lastValue := some v, sentLog := s.sentLog ++ [v] }

/-- Fold a sequence of recomputed diff-information values through the
equality-gated observable. -/
def runDiffRecomputations (s : DiffObservableState)
    (vs : List (Option TextEditorDiffInformation)) : DiffObservableState :=
  vs.foldl diffRecompute s

/-- A sample editor used to instantiate theorems on concrete inputs. -/
def sampleEditor : TextEditorState :=
  ⟨⟨"file:a.txt", 6, "abc"⟩, [], [], [], [], [], some "ce1"⟩

/-- A sample world holding one resolvable handle. -/
def sampleWorld : World := ⟨[("e1", sampleEditor)], [], [], [], []⟩

/-- A world in which no handle resolves. -/
def emptyWorld : World := ⟨[], [], [], [], []⟩

/-- A sample bridge state. -/
def sampleBridge : BridgeState := ⟨"1", [], none, [], true, []⟩

/-! ## Key-uniqueness facts about JavaScript-object association lists -/

theorem keys_map_replace (m : List (String × Nat)) (k : String) (v : Nat) :
    (m.map (fun p => if p.1 == k then (k, v) else p)).map Prod.fst =
      m.map Prod.fst := by
  induction m with
  | nil => rfl
  | cons hd tl ih =>
    simp only [List.map_cons, ih]
    by_cases h : hd.1 = k
    · simp [h]
    · simp [h]

theorem mem_keys_assocSet (m : List (String × Nat)) (k a : String) (v : Nat) :
    a ∈ (assocSet m k v).map Prod.fst ↔ a ∈ m.map Prod.fst ∨ a = k := by
  unfold assocSet
  by_cases h : m.any (fun p => p.1 == k)
  · rw [if_pos h, keys_map_replace]
    constructor
    · exact Or.inl
    · rintro (ha | rfl)
      · exact ha
      · rcases List.any_eq_true.mp h with ⟨p, hp, hpk⟩
        have : p.1 = a := by simpa using hpk
        exact this ▸ List.mem_map_of_mem Prod.fst hp
  · rw [if_neg h]
    simp [List.map_append, List.mem_append, or_comm, eq_comm]

theorem nodup_keys_assocSet (m : List (String × Nat)) (k : String) (v : Nat)
    (hm : (m.map Prod.fst).Nodup) :
    ((assocSet m k v).map Prod.fst).Nodup := by
  unfold assocSet
  by_cases h : m.any (fun p => p.1 == k)
  · rw [if_pos h, keys_map_replace]; exact hm
  · rw [if_neg h]
    have hk : k ∉ m.map Prod.fst := by
      intro hmem
      rcases List.mem_map.mp hmem with ⟨p, hp, hpk⟩
      exact h (List.any_eq_true.mpr ⟨p, hp, by simp [hpk]⟩)
    simp only [List.map_append, List.map_cons, List.map_nil]
    rw [List.nodup_append]
    exact ⟨hm, List.nodup_singleton k, by simpa using hk⟩

theorem nodup_keys_getTextEditorPositionData (panes : List Pane) :
    ((getTextEditorPositionData panes).map Prod.fst).Nodup := by
  suffices h : ∀ (ps : List Pane) (acc : List (String × Nat)),
      (acc.map Prod.fst).Nodup →
      ((ps.foldl
        (fun acc pane =>
          match findTextEditorIdFor pane with
          | some id => if id == "" then acc else assocSet acc id pane.groupColumn
          | none => acc) acc).map Prod.fst).Nodup by
    exact h panes [] (by simp)
  intro ps
  induction ps with
  | nil => intro acc hacc; simpa using hacc
  | cons p ps ih =>
    intro acc hacc
    simp only [List.foldl_cons]
    cases hid : findTextEditorIdFor p with
    | none => exact ih acc hacc
    | some id =>
      by_cases hemp : id = ""
      · simp only [hemp]
        exact ih acc (by simpa using hacc)
      · have : (id == "") = false := by simp [hemp]
        simp only [this, if_false]
        exact ih _ (nodup_keys_assocSet acc id p.groupColumn hacc)

theorem lookup_eq_of_mem_nodup (m : List (String × Nat)) (k : String) (v : Nat)
    (hm : (m.map Prod.fst).Nodup) (hmem : (k, v) ∈ m) :
    m.lookup k = some v := by
  induction m with
  | nil => cases hmem
  | cons hd tl ih =>
    rw [List.map_cons, List.nodup_cons] at hm
    rcases List.mem_cons.mp hmem with heq | htl
    · subst heq
      simp [List.lookup]
    · have hk : k ∈ tl.map Prod.fst := List.mem_map_of_mem Prod.fst htl
      have hbeq : (k == hd.1) = false := by
        have hne : hd.1 ≠ k := fun h => hm.1 (h ▸ hk)
        simp [Ne.symm hne]
      cases hd with
      | mk k₁ v₁ =>
        simp only [List.lookup, hbeq]
        exact ih hm.2 htl

theorem posDataEquals_refl_of_nodup (m : PositionData)
    (hm : (m.map Prod.fst).Nodup) : posDataEquals m m = true := by
  unfold posDataEquals
  rw [Bool.and_self]
  rw [List.all_eq_true]
  intro p hp
  have : m.lookup p.1 = some p.2 :=
    lookup_eq_of_mem_nodup m p.1 p.2 hm (by simpa using hp)
  simp [this]

theorem posDataEquals_getPos_refl (panes : List Pane) :
    posDataEquals (getTextEditorPositionData panes)
      (getTextEditorPositionData panes) = true :=
  posDataEquals_refl_of_nodup _ (nodup_keys_getTextEditorPositionData panes)

/-! ## C1: position data is sent iff the mapping changed -/

/-- C1: for any bridge state (hence after any sequence of
visible-editor-set change, group-removed and group-moved notifications,
which all invoke this same handler), a position-data notification is
appended to the peer log iff the newly computed handle-to-column mapping
is not structurally equal to the last mapping sent; and re-firing a change
that yields an identical mapping is a complete no-op. -/
theorem positionData_sent_iff_mapping_changed (b : BridgeState)
    (panes : List Pane) :
    ((updateActiveAndVisibleTextEditors b panes).peerLog =
        b.peerLog ++ [PeerMsg.positionData (getTextEditorPositionData panes)] ↔
      posDataOptEquals b.editorPositionData
        (getTextEditorPositionData panes) = false) ∧
    ((updateActiveAndVisibleTextEditors b panes).peerLog = b.peerLog ↔
      posDataOptEquals b.editorPositionData
        (getTextEditorPositionData panes) = true) ∧
    updateActiveAndVisibleTextEditors
      (updateActiveAndVisibleTextEditors b panes) panes =
      updateActiveAndVisibleTextEditors b panes := by
  have hlen : ∀ (l : List PeerMsg) (x : PeerMsg), ¬l = l ++ [x] := by
    intro l x habs
    have := congrArg List.length habs
    simp at this
  by_cases h : posDataOptEquals b.editorPositionData
      (getTextEditorPositionData panes) = true
  · rw [updateActiveAndVisibleTextEditors, if_pos h]
    refine ⟨⟨fun habs => (hlen _ _ habs).elim, fun hfalse => ?_⟩,
      ⟨fun _ => h, fun _ => rfl⟩, ?_⟩
    · rw [h] at hfalse
      cases hfalse
    · rw [updateActiveAndVisibleTextEditors, if_pos h]
  · have h' : posDataOptEquals b.editorPositionData
        (getTextEditorPositionData panes) = false := Bool.eq_false_iff.mpr h
    rw [updateActiveAndVisibleTextEditors, if_neg h]
    refine ⟨⟨fun _ => h', fun _ => rfl⟩,
      ⟨fun habs => (hlen _ _ habs.symm).elim, fun htrue => ?_⟩, ?_⟩
    · rw [h'] at htrue
      cases htrue
    · rw [updateActiveAndVisibleTextEditors, if_pos]
      show posDataOptEquals (some (getTextEditorPositionData panes))
        (getTextEditorPositionData panes) = true
      simp [posDataOptEquals, posDataEquals_getPos_refl]

/-- Witness for C1 at a concrete input: one visible pane, fresh state
(nothing sent yet), so the notification goes out. -/
theorem positionData_sent_iff_mapping_changed_witness :
    (updateActiveAndVisibleTextEditors
        ⟨"1", [], none, [], true, []⟩ [⟨some "e1", 2⟩]).peerLog =
      [] ++ [PeerMsg.positionData
        (getTextEditorPositionData [⟨some "e1", 2⟩])] :=
  (positionData_sent_iff_mapping_changed
    ⟨"1", [], none, [], true, []⟩ [⟨some "e1", 2⟩]).1.mpr (by decide)

/-! ## C10: which panes contribute an entry to the position mapping -/

theorem mem_keys_getPos_aux (a : String) :
    ∀ (ps : List Pane) (acc : List (String × Nat)),
      (a ∈ (ps.foldl
        (fun acc pane =>
          match findTextEditorIdFor pane with
          | some id => if id == "" then acc else assocSet acc id pane.groupColumn
          | none => acc) acc).map Prod.fst) ↔
      (a ∈ acc.map Prod.fst ∨
        ∃ p ∈ ps, findTextEditorIdFor p = some a ∧ a ≠ "") := by
  intro ps
  induction ps with
  | nil => intro acc; simp
  | cons p ps ih =>
    intro acc
    simp only [List.foldl_cons]
    cases hid : findTextEditorIdFor p with
    | none =>
      rw [ih acc]
      constructor
      · rintro (h | h)
        · exact Or.inl h
        · exact Or.inr (by
            rcases h with ⟨q, hq, hfq⟩
            exact ⟨q, List.mem_cons_of_mem p hq, hfq⟩)
      · rintro (h | ⟨q, hq, hfq, hne⟩)
        · exact Or.inl h
        · rcases List.mem_cons.mp hq with rfl | hq'
          · rw [hid] at hfq; cases hfq
          · exact Or.inr ⟨q, hq', hfq, hne⟩
    | some id =>
      by_cases hemp : id = ""
      · subst hemp
        simp only [beq_self_eq_true, if_true]
        rw [ih acc]
        constructor
        · rintro (h | ⟨q, hq, hfq, hne⟩)
          · exact Or.inl h
          · exact Or.inr ⟨q, List.mem_cons_of_mem p hq, hfq, hne⟩
        · rintro (h | ⟨q, hq, hfq, hne⟩)
          · exact Or.inl h
          · rcases List.mem_cons.mp hq with rfl | hq'
            · rw [hid] at hfq
              cases hfq
              exact absurd rfl hne
            · exact Or.inr ⟨q, hq', hfq, hne⟩
      · have hb : (id == "") = false := by simp [hemp]
        simp only [hb, Bool.false_eq_true, if_false]
        rw [ih (assocSet acc id p.groupColumn)]
        rw [mem_keys_assocSet]
        constructor
        · rintro ((h | rfl) | ⟨q, hq, hfq, hne⟩)
          · exact Or.inl h
          · exact Or.inr ⟨p, List.mem_cons_self p ps, hid, hemp⟩
          · exact Or.inr ⟨q, List.mem_cons_of_mem p hq, hfq, hne⟩
        · rintro (h | ⟨q, hq, hfq, hne⟩)
          · exact Or.inl (Or.inl h)
          · rcases List.mem_cons.mp hq with rfl | hq'
            · rw [hid] at hfq
              cases hfq
              exact Or.inl (Or.inr rfl)
            · exact Or.inr ⟨q, hq', hfq, hne⟩

/-- C10 (amended): the computed position mapping has an entry exactly for
those visible panes whose locator-resolved handle is a nonempty string;
panes with no resolvable handle are omitted, and — because the source
guards with the JavaScript truthiness test `if (id)` — a pane whose
resolved handle is the empty string is omitted as well. -/
theorem positionData_keys_iff (panes : List Pane) (a : String) :
    a ∈ (getTextEditorPositionData panes).map Prod.fst ↔
      ∃ p ∈ panes, findTextEditorIdFor p = some a ∧ a ≠ "" := by
  unfold getTextEditorPositionData
  rw [mem_keys_getPos_aux]
  simp

/-- C10 counterexample to the claim as stated: a visible pane for which
the locator does resolve a handle (the empty string) yet whose handle has
no entry in the computed mapping. -/
theorem positionData_keys_counterexample :
    findTextEditorIdFor ⟨some "", 1⟩ = some "" ∧
      ¬("" ∈ (getTextEditorPositionData [⟨some "", 1⟩]).map Prod.fst) := by
  decide

/-- Witness for C10 (amended) at a concrete input. -/
theorem positionData_keys_iff_witness :
    "e1" ∈ (getTextEditorPositionData [⟨some "e1", 2⟩]).map Prod.fst :=
  (positionData_keys_iff [⟨some "e1", 2⟩] "e1").mpr (by decide)

/-! ## C2: every editor-mutating command rejects an unresolvable handle -/

/-- C2: when the locator does not resolve the handle, each of set
selections, set decorations (both forms), reveal range, set options,
apply edits and insert snippet returns a rejected outcome carrying an
illegal-argument condition naming TextEditor(id); no command returns a
successor world, so no state is mutated. -/
theorem commands_reject_unresolvable_handle (b : BridgeState) (w : World)
    (id key : String) (selections : List TextEditorSelection)
    (ranges : List (Nat × Nat)) (rangesFast : List Nat) (range : Nat × Nat)
    (revealType update modelVersionId : Nat) (edits : List EditOperation)
    (template : String) (h : getEditor w id = none) :
    trySetSelections w id selections =
      .error (.illegalArgument ("TextEditor(" ++ id ++ ")")) ∧
    trySetDecorations b w id key ranges =
      .error (.illegalArgument ("TextEditor(" ++ id ++ ")")) ∧
    trySetDecorationsFast b w id key rangesFast =
      .error (.illegalArgument ("TextEditor(" ++ id ++ ")")) ∧
    tryRevealRange w id range revealType =
      .error (.illegalArgument ("TextEditor(" ++ id ++ ")")) ∧
    trySetOptions w id update =
      .error (.illegalArgument ("TextEditor(" ++ id ++ ")")) ∧
    tryApplyEdits w id modelVersionId edits =
      .error (.illegalArgument ("TextEditor(" ++ id ++ ")")) ∧
    tryInsertSnippet w id template =
      .error (.illegalArgument ("TextEditor(" ++ id ++ ")")) := by
  refine ⟨?_, ?_, ?_, ?_, ?_, ?_, ?_⟩ <;>
    simp [trySetSelections, trySetDecorations, trySetDecorationsFast,
      tryRevealRange, trySetOptions, tryApplyEdits, tryInsertSnippet, h]

/-- Witness for C2 at the spec's own example input. -/
theorem commands_reject_unresolvable_handle_witness :
    trySetSelections emptyWorld "missing" [] =
      .error (.illegalArgument ("TextEditor(" ++ "missing" ++ ")")) :=
  (commands_reject_unresolvable_handle sampleBridge emptyWorld "missing" "k"
    [] [] [] (0, 0) 0 0 0 [] "t" rfl).1

/-! ## C3: stale model version returns false without mutating -/

theorem updateEditor_self (l : List (String × TextEditorState)) (id : String)
    (e : TextEditorState) (h : l.lookup id = some e) :
    updateEditor l id e = l := by
  induction l with
  | nil => cases h
  | cons hd tl ih =>
    cases hd with
    | mk k ev =>
      by_cases hk : k = id
      · subst hk
        simp only [List.lookup, beq_self_eq_true] at h
        injection h with h
        subst h
        simp [updateEditor]
      · have hbeq : (id == k) = false := by simp [Ne.symm hk]
        simp only [List.lookup, hbeq] at h
        unfold updateEditor
        rw [if_neg hk]
        rw [ih h]

/-- C3: with a resolvable handle, apply edits with an expected model
version different from the editor's current model version returns `false`
(an ordinary result, not a rejection) and leaves the world — in
particular the editor's model — unchanged; with an unresolvable handle it
rejects. -/
theorem applyEdits_staleVersion_returns_false (w : World) (id : String)
    (e : TextEditorState) (modelVersionId : Nat)
    (edits : List EditOperation) :
    (getEditor w id = some e → modelVersionId ≠ e.model.versionId →
      tryApplyEdits w id modelVersionId edits = .ok (w, false)) ∧
    (getEditor w id = none →
      tryApplyEdits w id modelVersionId edits =
        .error (.illegalArgument ("TextEditor(" ++ id ++ ")"))) := by
  constructor
  · intro hsome hne
    have happ : applyEdits e modelVersionId edits = (false, e) := by
      unfold applyEdits
      rw [if_pos hne]
    have hset : setEditor w id e = w := by
      unfold setEditor
      rw [updateEditor_self w.editors id e hsome]
    simp only [tryApplyEdits, hsome, happ, hset]
  · intro hnone
    simp only [tryApplyEdits, hnone]

/-- Witness for C3 at the spec's own example: editor e1 has model version
6, edits expect version 5, the call returns false and mutates nothing. -/
theorem applyEdits_staleVersion_returns_false_witness :
    tryApplyEdits sampleWorld "e1" 5 [] = .ok (sampleWorld, false) :=
  (applyEdits_staleVersion_returns_false sampleWorld "e1" sampleEditor 5
    []).1 (by decide) (by decide)

/-! ## C8: show and hide are silent no-ops on unresolvable handles -/

/-- C8: show editor and hide editor resolve successfully without any
effect when the handle does not resolve, and hide editor is also a silent
no-op when the editor resolves but no visible pane matches it. -/
theorem showHide_unresolvable_handle_noop (w : World) (id : String)
    (position : Option Nat) :
    (getEditor w id = none → tryShowEditor w id position = .ok (w, ())) ∧
    (getEditor w id = none → tryHideEditor w id = .ok (w, ())) ∧
    (∀ e, getEditor w id = some e →
      w.visiblePanes.find? (editorMatchesPane id) = none →
      tryHideEditor w id = .ok (w, ())) := by
  refine ⟨?_, ?_, ?_⟩
  · intro h
    simp only [tryShowEditor, h]
  · intro h
    simp only [tryHideEditor, h]
  · intro e hsome hfind
    simp only [tryHideEditor, hsome, hfind]

/-- Witness for C8 at a concrete input. -/
theorem showHide_unresolvable_handle_noop_witness :
    tryShowEditor emptyWorld "missing" (some 2) = .ok (emptyWorld, ()) :=
  (showHide_unresolvable_handle_noop emptyWorld "missing" (some 2)).1 rfl

/-! ## C9: get diff information -/

/-- C9: get diff information rejects when the handle does not resolve or
the editor has no code-editor surface; otherwise it returns the first
matching diff view's line changes (empty when no result yet), else the
dirty-diff contribution's cached changes, else the empty list. -/
theorem getDiffInformation_characterization (w : World) (id : String) :
    (getEditor w id = none →
      getDiffInformation w id = .error (.genericError "No such TextEditor")) ∧
    (∀ e, getEditor w id = some e → e.codeEditorId = none →
      getDiffInformation w id = .error (.genericError "No such CodeEditor")) ∧
    (∀ e ce d, getEditor w id = some e → e.codeEditorId = some ce →
      (w.diffEditors.filter
        (fun x => x.originalId == ce || x.modifiedId == ce)).head? = some d →
      getDiffInformation w id = .ok (d.lineChanges.getD [])) ∧
    (∀ e ce cs, getEditor w id = some e → e.codeEditorId = some ce →
      (w.diffEditors.filter
        (fun x => x.originalId == ce || x.modifiedId == ce)).head? = none →
      w.dirtyDiffContributions.lookup ce = some cs →
      getDiffInformation w id = .ok cs) ∧
    (∀ e ce, getEditor w id = some e → e.codeEditorId = some ce →
      (w.diffEditors.filter
        (fun x => x.originalId == ce || x.modifiedId == ce)).head? = none →
      w.dirtyDiffContributions.lookup ce = none →
      getDiffInformation w id = .ok []) := by
  refine ⟨?_, ?_, ?_, ?_, ?_⟩
  · intro h
    simp only [getDiffInformation, h]
  · intro e hsome hce
    simp only [getDiffInformation, hsome, hce]
  · intro e ce d hsome hce hd
    simp only [getDiffInformation, hsome, hce, hd]
  · intro e ce cs hsome hce hd hc
    simp only [getDiffInformation, hsome, hce, hd, hc]
  · intro e ce hsome hce hd hc
    simp only [getDiffInformation, hsome, hce, hd, hc]

/-- Witness for C9: the sample editor has a code editor but no diff view
and no dirty-diff contribution, so the result is the empty list. -/
theorem getDiffInformation_characterization_witness :
    getDiffInformation sampleWorld "e1" = .ok [] :=
  (getDiffInformation_characterization sampleWorld "e1").2.2.2.2 sampleEditor
    "ce1" (by decide) (by decide) (by decide) (by decide)

/-! ## C4: a removed editor is never forwarded again -/

theorem emitEditorEvent_listeners (b : BridgeState) (ev : EditorEvent) :
    (emitEditorEvent b ev).listeners = b.listeners := by
  cases ev <;> (dsimp only [emitEditorEvent]; split <;> rfl)

theorem emitEditorEvent_peerLog_mem (b : BridgeState) (ev : EditorEvent)
    (m : PeerMsg) (hm : m ∈ (emitEditorEvent b ev).peerLog) :
    m ∈ b.peerLog ∨ ∃ i ∈ b.listeners, m.handleOf = some i := by
  cases ev with
  | propertiesChanged id data =>
    dsimp only [emitEditorEvent] at hm
    by_cases h : id ∈ b.listeners
    · rw [if_pos h] at hm
      rcases List.mem_append.mp hm with h' | h'
      · exact Or.inl h'
      · rcases List.mem_singleton.mp h' with rfl
        exact Or.inr ⟨id, h, rfl⟩
    · rw [if_neg h] at hm
      exact Or.inl hm
  | diffChanged id value =>
    dsimp only [emitEditorEvent] at hm
    by_cases h : id ∈ b.listeners
    · rw [if_pos h] at hm
      rcases List.mem_append.mp hm with h' | h'
      · exact Or.inl h'
      · rcases List.mem_singleton.mp h' with rfl
        exact Or.inr ⟨id, h, rfl⟩
    · rw [if_neg h] at hm
      exact Or.inl hm

theorem runEditorEvents_no_forward_for (id : String) :
    ∀ (evs : List EditorEvent) (b : BridgeState), id ∉ b.listeners →
      ∀ m ∈ (runEditorEvents b evs).peerLog, m.handleOf = some id →
        m ∈ b.peerLog := by
  intro evs
  induction evs with
  | nil => intro b _ m hm _; exact hm
  | cons ev evs ih =>
    intro b hb m hm hid
    have hb' : id ∉ (emitEditorEvent b ev).listeners := by
      rw [emitEditorEvent_listeners]; exact hb
    have hm' : m ∈ (emitEditorEvent b ev).peerLog :=
      ih (emitEditorEvent b ev) hb' m hm hid
    rcases emitEditorEvent_peerLog_mem b ev m hm' with h | ⟨i, hi, hmi⟩
    · exact h
    · rw [hid] at hmi
      injection hmi with hmi
      exact absurd (hmi ▸ hi) hb

/-- C4: after the editor-removed operation for a handle, no
property-changed or diff-information notification for that handle is ever
added to the peer log, whatever emissions the underlying editor objects
later produce; and invoking editor-removed for a handle with no listener
bundle leaves the bridge state unchanged. -/
theorem removedEditor_never_forwarded_again (b : BridgeState) (id : String)
    (evs : List EditorEvent) :
    (∀ m ∈ (runEditorEvents (handleTextEditorRemoved b id) evs).peerLog,
      m.handleOf = some id → m ∈ b.peerLog) ∧
    (id ∉ b.listeners → handleTextEditorRemoved b id = b) := by
  constructor
  · intro m hm hid
    have hnot : id ∉ (handleTextEditorRemoved b id).listeners := by
      intro hmem
      unfold handleTextEditorRemoved at hmem
      have := (List.mem_filter.mp hmem).2
      simp at this
    exact runEditorEvents_no_forward_for id evs
      (handleTextEditorRemoved b id) hnot m hm hid
  · intro hnot
    unfold handleTextEditorRemoved
    have hfix : b.listeners.filter (fun x => x != id) = b.listeners := by
      apply List.filter_eq_self.mpr
      intro a ha
      have : a ≠ id := fun h => hnot (h ▸ ha)
      simpa using this
    rw [hfix]

/-- Witness for C4: removing a handle that holds no listener bundle is a
harmless no-op, here on a bridge listening to a different handle. -/
theorem removedEditor_never_forwarded_again_witness :
    handleTextEditorRemoved ⟨"1", ["b"], none, [], true, []⟩ "a" =
      ⟨"1", ["b"], none, [], true, []⟩ :=
  (removedEditor_never_forwarded_again ⟨"1", ["b"], none, [], true, []⟩ "a"
    []).2 (by decide)

/-! ## C7: dispose releases everything and resets the state -/

theorem filter_not_contains_cons (k : String) (ks : List String)
    (svc : DecorationTypeRegistry) :
    (svc.filter (fun x => x != k)).filter (fun x => !ks.contains x) =
      svc.filter (fun x => !((k :: ks).contains x)) := by
  rw [List.filter_filter]
  apply List.filter_congr
  intro x _
  by_cases hxk : x = k
  · subst hxk
    simp [List.contains_cons]
  · by_cases hxks : x ∈ ks
    · simp [List.contains_cons, hxk, hxks]
    · simp [List.contains_cons, hxk, hxks]

theorem foldl_removeDecorationTypeSvc_eq_filter :
    ∀ (keys : List String) (svc : DecorationTypeRegistry),
      keys.foldl removeDecorationTypeSvc svc =
        svc.filter (fun x => !(keys.contains x)) := by
  intro keys
  induction keys with
  | nil => intro svc; simp
  | cons k ks ih =>
    intro svc
    simp only [List.foldl_cons]
    rw [show removeDecorationTypeSvc svc k = svc.filter (fun x => x != k)
      from rfl]
    rw [ih, filter_not_contains_cons]

/-- C7: dispose resets the listener map and the decoration registry to
empty, releases the remaining internal subscriptions, removes from the
rendering service exactly the decoration types this instance registered,
and afterwards no emission is forwarded any more. -/
theorem dispose_releases_everything (b : BridgeState)
    (svc : DecorationTypeRegistry) :
    (dispose b svc).1.listeners = [] ∧
    (dispose b svc).1.registeredDecorationTypes = [] ∧
    (dispose b svc).1.subscriptionsActive = false ∧
    (dispose b svc).2 =
      svc.filter (fun x => !(b.registeredDecorationTypes.contains x)) ∧
    (∀ ev, emitEditorEvent (dispose b svc).1 ev = (dispose b svc).1) := by
  refine ⟨rfl, rfl, rfl, ?_, ?_⟩
  · exact foldl_removeDecorationTypeSvc_eq_filter b.registeredDecorationTypes svc
  · intro ev
    cases ev <;> simp [emitEditorEvent, dispose]

/-- Witness for C7 at a concrete input: the bridge registered 1-K, the
shared service also holds another instance's 2-K, and dispose removes
exactly 1-K. -/
theorem dispose_releases_everything_witness :
    (dispose ⟨"1", ["a"], none, ["1-K"], true, []⟩ ["1-K", "2-K"]).2 =
      ["2-K"] := by
  rw [(dispose_releases_everything ⟨"1", ["a"], none, ["1-K"], true, []⟩
    ["1-K", "2-K"]).2.2.2.1]
  decide

/-! ## C5: per-instance namespacing of decoration-type keys -/

theorem digitCh_injOn :
    ∀ d1, d1 < 10 → ∀ d2, d2 < 10 → digitCh d1 = digitCh d2 → d1 = d2 := by
  decide

theorem map_digitCh_inj :
    ∀ (l1 l2 : List Nat), (∀ d ∈ l1, d < 10) → (∀ d ∈ l2, d < 10) →
      l1.map digitCh = l2.map digitCh → l1 = l2 := by
  intro l1
  induction l1 with
  | nil =>
    intro l2 _ _ h
    cases l2 with
    | nil => rfl
    | cons b t => simp at h
  | cons a l ih =>
    intro l2 h1 h2 h
    cases l2 with
    | nil => simp at h
    | cons b t =>
      simp only [List.map_cons, List.cons.injEq] at h
      have ha : a = b :=
        digitCh_injOn a (h1 a (List.mem_cons_self a l)) b
          (h2 b (List.mem_cons_self b t)) h.1
      subst ha
      rw [ih t (fun d hd => h1 d (List.mem_cons_of_mem a hd))
        (fun d hd => h2 d (List.mem_cons_of_mem a hd)) h.2]

theorem string_data_inj {s t : String} (h : s.data = t.data) : s = t := by
  cases s with
  | mk d1 =>
    cases t with
    | mk d2 =>
      cases h
      rfl

theorem natToDecimal_zero_ne (n : Nat) (hn : n ≠ 0) :
    ("0" : String) ≠ ⟨(Nat.digits 10 n).reverse.map digitCh⟩ := by
  intro h
  have hdata := congrArg String.data h
  have h0 : ("0" : String).data = ['0'] := rfl
  rw [h0] at hdata
  cases hrev : (Nat.digits 10 n).reverse with
  | nil =>
    rw [hrev] at hdata
    simp at hdata
  | cons d rest =>
    rw [hrev] at hdata
    simp only [List.map_cons] at hdata
    injection hdata with hd1 hd2
    have hrest : rest = [] := by
      cases rest with
      | nil => rfl
      | cons x xs => simp at hd2
    subst hrest
    have hmem : d ∈ Nat.digits 10 n := by
      rw [← List.mem_reverse, hrev]
      exact List.mem_singleton.mpr rfl
    have hd10 : d < 10 := Nat.digits_lt_base (by norm_num) hmem
    have hd0 : d = 0 := by
      have h00 : digitCh 0 = digitCh d := hd1
      exact (digitCh_injOn 0 (by norm_num) d hd10 h00).symm
    subst hd0
    have hdig : Nat.digits 10 n = [0] := by
      have := congrArg List.reverse hrev
      simpa using this
    apply hn
    have := Nat.ofDigits_digits 10 n
    rw [hdig] at this
    simpa [Nat.ofDigits] using this.symm

theorem natToDecimal_inj (m n : Nat) (h : natToDecimal m = natToDecimal n) :
    m = n := by
  unfold natToDecimal at h
  by_cases hm : m = 0 <;> by_cases hn : n = 0
  · rw [hm, hn]
  · rw [if_pos hm, if_neg hn] at h
    exact absurd h (natToDecimal_zero_ne n hn)
  · rw [if_neg hm, if_pos hn] at h
    exact absurd h.symm (natToDecimal_zero_ne m hm)
  · rw [if_neg hm, if_neg hn] at h
    have hdata := congrArg String.data h
    have h1 : ∀ d ∈ (Nat.digits 10 m).reverse, d < 10 := fun d hd =>
      Nat.digits_lt_base (by norm_num) (List.mem_reverse.mp hd)
    have h2 : ∀ d ∈ (Nat.digits 10 n).reverse, d < 10 := fun d hd =>
      Nat.digits_lt_base (by norm_num) (List.mem_reverse.mp hd)
    have hmap := map_digitCh_inj _ _ h1 h2 hdata
    have hdig : Nat.digits 10 m = Nat.digits 10 n := by
      have := congrArg List.reverse hmap
      simpa using this
    exact Nat.digits_inj_iff.mp hdig

theorem mkInstanceId_inj (c1 c2 : Nat) (h : mkInstanceId c1 = mkInstanceId c2) :
    c1 = c2 :=
  natToDecimal_inj c1 c2 h

/-- C5: decoration-type keys registered under the same caller key by two
bridge instances created at distinct counter values map to distinct stored
keys in the shared rendering service; the register command stores exactly
the namespaced key, and removing one instance's key from the service
leaves the other instance's registration in place. -/
theorem decorationKey_namespacing_distinct (c1 c2 : Nat) (k : String)
    (svc : DecorationTypeRegistry) (h : c1 ≠ c2) :
    namespaceDecorationKey (mkInstanceId c1) k ≠
      namespaceDecorationKey (mkInstanceId c2) k ∧
    (∀ b : BridgeState,
      (registerTextEditorDecorationType b svc k).2 =
        registerDecorationTypeSvc svc
          (namespaceDecorationKey b.instanceId k)) ∧
    namespaceDecorationKey (mkInstanceId c2) k ∈
      removeDecorationTypeSvc
        (registerDecorationTypeSvc
          (registerDecorationTypeSvc svc
            (namespaceDecorationKey (mkInstanceId c1) k))
          (namespaceDecorationKey (mkInstanceId c2) k))
        (namespaceDecorationKey (mkInstanceId c1) k) := by
  have hne : namespaceDecorationKey (mkInstanceId c1) k ≠
      namespaceDecorationKey (mkInstanceId c2) k := by
    intro heq
    apply h
    apply mkInstanceId_inj
    have hdata := congrArg String.data heq
    unfold namespaceDecorationKey at hdata
    simp only [String.data_append] at hdata
    have hstep := List.append_cancel_right hdata
    have hid := List.append_cancel_right hstep
    exact string_data_inj hid
  refine ⟨hne, fun b => rfl, ?_⟩
  apply List.mem_filter.mpr
  constructor
  · unfold registerDecorationTypeSvc
    exact List.mem_append.mpr (Or.inr (List.mem_singleton.mpr rfl))
  · simpa using Ne.symm hne

/-- Witness for C5 at concrete counter values 1 and 2. -/
theorem decorationKey_namespacing_distinct_witness :
    namespaceDecorationKey (mkInstanceId 1) "K" ≠
      namespaceDecorationKey (mkInstanceId 2) "K" :=
  (decorationKey_namespacing_distinct 1 2 "K" [] (by decide)).1

/-! ## C6: diff information is forwarded only when it changed -/

theorem isTextEditorDiffInformationEqualModel_refl
    (v : Option TextEditorDiffInformation) :
    isTextEditorDiffInformationEqualModel v v = true := by
  cases v <;> simp [isTextEditorDiffInformationEqualModel]

theorem runDiffRecomputations_lastValue_getLast :
    ∀ (vs : List (Option TextEditorDiffInformation))
      (s : DiffObservableState), s.lastValue = s.sentLog.getLast? →
      (runDiffRecomputations s vs).lastValue =
        (runDiffRecomputations s vs).sentLog.getLast? := by
  intro vs
  induction vs with
  | nil => intro s hs; exact hs
  | cons v vs ih =>
    intro s hs
    simp only [runDiffRecomputations, List.foldl_cons]
    refine ih (diffRecompute s v) ?_
    cases hl : s.lastValue with
    | none =>
      have hstep : diffRecompute s v = ⟨some v, s.sentLog ++ [v]⟩ := by
        unfold diffRecompute
        rw [hl]
      rw [hstep]
      simp [List.getLast?_concat]
    | some prev =>
      by_cases he : isTextEditorDiffInformationEqualModel prev v = true
      · have hstep : diffRecompute s v = s := by
          unfold diffRecompute
          rw [hl]
          dsimp only
          rw [if_pos he]
        rw [hstep]
        exact hs
      · have hstep : diffRecompute s v = ⟨some v, s.sentLog ++ [v]⟩ := by
          unfold diffRecompute
          rw [hl]
          dsimp only
          rw [if_neg he]
        rw [hstep]
        simp [List.getLast?_concat]

/-- C6: a recomputed diff-information value is forwarded to the peer iff
it is not equal, under the custom structural equality, to the previous
value; re-delivering an equal recomputation changes nothing; and along any
run from the initial state the gate's previous value is exactly the last
value forwarded to the peer. -/
theorem diffInformation_forwarded_iff_changed (s : DiffObservableState)
    (v prev : Option TextEditorDiffInformation) :
    (s.lastValue = some prev →
      ((diffRecompute s v).sentLog = s.sentLog ++ [v] ↔
        isTextEditorDiffInformationEqualModel prev v = false)) ∧
    diffRecompute (diffRecompute s v) v = diffRecompute s v ∧
    (∀ vs, (runDiffRecomputations initialDiffObservableState vs).lastValue =
      (runDiffRecomputations initialDiffObservableState vs).sentLog.getLast?) := by
  have hlen : ∀ (l : List (Option TextEditorDiffInformation))
      (x : Option TextEditorDiffInformation), ¬l = l ++ [x] := by
    intro l x habs
    have := congrArg List.length habs
    simp at this
  refine ⟨?_, ?_, ?_⟩
  · intro hprev
    simp only [diffRecompute, hprev]
    by_cases he : isTextEditorDiffInformationEqualModel prev v = true
    · rw [if_pos he]
      constructor
      · intro habs
        exact absurd habs (hlen _ _)
      · intro hfalse
        rw [he] at hfalse
        cases hfalse
    · rw [if_neg he]
      exact ⟨fun _ => Bool.eq_false_iff.mpr he, fun _ => rfl⟩
  · cases hl : s.lastValue with
    | none =>
      simp [diffRecompute, hl, isTextEditorDiffInformationEqualModel_refl]
    | some prev =>
      by_cases he : isTextEditorDiffInformationEqualModel prev v = true
      · simp [diffRecompute, hl, he]
      · simp [diffRecompute, hl, he,
          isTextEditorDiffInformationEqualModel_refl]
  · intro vs
    exact runDiffRecomputations_lastValue_getLast vs
      initialDiffObservableState rfl

/-- Witness for C6: the gate last saw `undefined`; a fresh diff value is
not equal to it, so it is forwarded. -/
theorem diffInformation_forwarded_iff_changed_witness :
    (diffRecompute ⟨some none, []⟩
        (some (⟨1, "a", "b", []⟩ : TextEditorDiffInformation))).sentLog =
      [] ++ [some (⟨1, "a", "b", []⟩ : TextEditorDiffInformation)] :=
  ((diffInformation_forwarded_iff_changed ⟨some none, []⟩
    (some (⟨1, "a", "b", []⟩ : TextEditorDiffInformation)) none).1 rfl).mpr
    (by decide)

end MainThreadEditors
